import Mathlib

/-!
Verification of the card-selection decision engine of
`server/app/services/openai_client.py`: the function
`analyze_location_and_recommend_card` and its local helpers
`normalize_card_name`, `canonicalize_category`, `build_rows` and
`deterministic_best`.

Modelling conventions:
* Python floats become rationals (`ℚ`); `math.isclose` becomes the exact
  rational inequality it computes.
* Python dicts with string keys become association lists read with
  `List.lookup` (first match — dict keys are unique in the source data).
* Python's stable `list.sort(key=...)` becomes `List.insertionSort`,
  which is likewise a stable sort, run with the same key (case-sensitive
  lexicographic order on the card string).
* The network calls (file read, chat-completion request) are the only
  effectful steps; the reply of the text-generation collaborator and the
  rewards dataset are passed to the model as parameters, and a raised
  exception from the collaborator is one constructor of `LLMOutcome`.
-/

namespace Keel

attribute [local semireducible] Rat.add Rat.sub Rat.mul Rat.inv Rat.ofScientific

/-- Python `s.lower()`, modelled characterwise.  (Defined on the character
list rather than through `String.toLower` so that concrete inputs evaluate
inside kernel reduction.) -/
def toLowerStr (s : String) : String := ⟨s.data.map Char.toLower⟩

/-- Python `s.strip()`: drop whitespace from both ends. -/
def trimStr (s : String) : String :=
  ⟨((s.data.dropWhile Char.isWhitespace).reverse.dropWhile Char.isWhitespace).reverse⟩

/-- `lc` from the source: `s.lower().strip()` for a string argument. -/
def lcStr (s : String) : String := trimStr (toLowerStr s)

/-- One row of the multipliers table built by `build_rows` (a Python dict
with keys `card`, `category_multiplier`, `rotating_multiplier`,
`base_multiplier`, `effective_multiplier`). -/
structure MultiplierRow where
  card : String
  category_multiplier : ℚ
  rotating_multiplier : ℚ
  base_multiplier : ℚ
  effective_multiplier : ℚ
deriving DecidableEq, Repr

/-- The tolerance used in `math.isclose(..., rel_tol=1e-9, abs_tol=1e-9)`. -/
def tol : ℚ := 1 / 1000000000

/-- `math.isclose(a, b, rel_tol=1e-9, abs_tol=1e-9)`, which computes
`abs(a-b) <= max(rel_tol * max(abs(a), abs(b)), abs_tol)`. -/
def isclose (a b : ℚ) : Bool :=
  decide (|a - b| ≤ max (tol * max |a| |b|) tol)

/-- Python `max(f(r) for r in rows)`: the first element seeds the fold.
Returns 0 on the empty list, on which the source never calls `max`. -/
def foldMax (f : MultiplierRow → ℚ) : List MultiplierRow → ℚ
  | [] => 0
  | r :: rs => rs.foldl (fun m x => max m (f x)) (f r)

/-- `max_eff = max(r["effective_multiplier"] for r in rows)`. -/
def maxEff (rows : List MultiplierRow) : ℚ :=
  foldMax (fun r => r.effective_multiplier) rows

/-- `max_base = max(r["base_multiplier"] for r in eff_tied)` (applied below
to `effTied rows`). -/
def maxBase (rows : List MultiplierRow) : ℚ :=
  foldMax (fun r => r.base_multiplier) rows

/-- `eff_tied` from `deterministic_best`: rows whose effective multiplier is
`isclose` to the maximum. -/
def effTied (rows : List MultiplierRow) : List MultiplierRow :=
  rows.filter (fun r => isclose r.effective_multiplier (maxEff rows))

/-- `base_tied` from `deterministic_best`: among `eff_tied`, rows whose base
multiplier is `isclose` to the maximum base over `eff_tied`. -/
def baseTied (rows : List MultiplierRow) : List MultiplierRow :=
  (effTied rows).filter (fun r => isclose r.base_multiplier (maxBase (effTied rows)))

/-- The sort key of `base_tied.sort(key=lambda x: x["card"])`: compare rows
by their card string. -/
def cardLe (a b : MultiplierRow) : Prop := a.card ≤ b.card

instance : DecidableRel cardLe :=
  fun a b => decidable_of_iff (a.card.toList ≤ b.card.toList) String.le_iff_toList_le.symm

instance : IsTrans MultiplierRow cardLe := ⟨fun _ _ _ => le_trans⟩

instance : IsTotal MultiplierRow cardLe := ⟨fun a b => le_total a.card b.card⟩

/-- `deterministic_best(rows)`: `None` on an empty list; otherwise filter to
the rows `isclose` to the maximal effective multiplier, return the sole
survivor if unique, else filter again by maximal base multiplier, return the
sole survivor if unique, else sort the survivors by card name and return the
first. -/
def deterministic_best (rows : List MultiplierRow) : Option MultiplierRow :=
  if rows.isEmpty then none
  else if (effTied rows).length = 1 then (effTied rows).head?
  else if (baseTied rows).length = 1 then (baseTied rows).head?
  else (List.insertionSort cardLe (baseTied rows)).head?

/-- `card_mappings` from `normalize_card_name`. -/
def cardMappings : List (String × String) :=
  [("amex gold card", "Amex Gold"),
   ("amex gold", "Amex Gold"),
   ("american express gold card", "Amex Gold"),
   ("american express gold", "Amex Gold"),
   ("chase sapphire preferred", "Chase Sapphire Preferred"),
   ("chase sapphire reserve", "Chase Sapphire Reserve"),
   ("chase freedom", "Chase Freedom"),
   ("chase freedom unlimited", "Chase Freedom Unlimited"),
   ("chase freedom flex", "Chase Freedom"),
   ("citi double cash", "Citi Double Cash"),
   ("citi custom cash", "Citi Custom Cash"),
   ("discover it cash back", "Discover it Cash Back"),
   ("discover it miles", "Discover it Miles"),
   ("capital one venture", "Capital One Venture"),
   ("capital one venture x", "Capital One Venture X"),
   ("amex platinum", "Amex Platinum"),
   ("amex blue cash preferred", "Amex Blue Cash Preferred"),
   ("amex blue cash everyday", "Amex Blue Cash Everyday"),
   ("wells fargo active cash", "Wells Fargo Active Cash"),
   ("bank of america customized cash", "Bank of America Customized Cash"),
   ("us bank cash+", "US Bank Cash+"),
   ("citi premier", "Citi Premier"),
   ("amex green", "Amex Green"),
   ("chase ink business preferred", "Chase Ink Business Preferred")]

/-- `normalize_card_name(card_name)`: the empty string (Python falsy) is
returned as is; otherwise `card_mappings.get(card_name.lower().strip(),
card_name)`. -/
def normalize_card_name (card_name : String) : String :=
  if card_name = "" then card_name
  else (cardMappings.lookup (lcStr card_name)).getD card_name

/-- `mcc_map` from `canonicalize_category`. -/
def mccMap : List (String × String) :=
  [("5812", "dining"), ("5813", "dining"), ("5814", "dining"),
   ("5411", "grocery"),
   ("5541", "gas"), ("5542", "gas"),
   ("7011", "hotels"),
   ("4511", "flights"),
   ("4111", "transit"), ("4121", "transit"),
   ("5912", "drugstores"),
   ("4900", "utilities")]

/-- `type_map` from `canonicalize_category`. -/
def typeMap : List (String × String) :=
  [("restaurant", "dining"),
   ("cafe", "dining"),
   ("coffee_shop", "dining"),
   ("grocery_or_supermarket", "grocery"),
   ("supermarket", "grocery"),
   ("gas_station", "gas"),
   ("lodging", "hotels"),
   ("airport", "flights"),
   ("train_station", "transit"),
   ("subway_station", "transit"),
   ("bus_station", "transit")]

/-- `cat_alias` from `canonicalize_category`. -/
def catAlias : List (String × String) :=
  [("restaurants", "dining"),
   ("restaurant", "dining"),
   ("coffee", "dining"),
   ("cafe", "dining"),
   ("groceries", "grocery"),
   ("supermarket", "grocery"),
   ("fuel", "gas"),
   ("gas", "gas"),
   ("drugstore", "drugstores"),
   ("pharmacy", "drugstores"),
   ("utility", "utilities"),
   ("travel", "travel"),
   ("flights", "flights"),
   ("hotels", "hotels"),
   ("transit", "transit"),
   ("online_shopping", "online_shopping")]

/-- `canonicalize_category(category, mcc, place_types)`:
1. `mcc = (mcc or "").strip()`; return `mcc_map[mcc]` when present;
2. else scan the lowercased place types in order, returning the first
   `type_map` hit;
3. else, when `category` is truthy (non-empty), return its alias (or the
   lowercased/trimmed text itself when unaliased);
4. else `None`. -/
def canonicalize_category (category mcc : Option String) (place_types : Option (List String)) :
    Option String :=
  match mccMap.lookup (trimStr (mcc.getD "")) with
  | some v => some v
  | none =>
    match ((place_types.getD []).map toLowerStr).findSome? (fun t => typeMap.lookup t) with
    | some v => some v
    | none =>
      match category with
      | some c =>
        if c = "" then none
        else some ((catAlias.lookup (lcStr c)).getD (lcStr c))
      | none => none

/-- The rewards dataset: `rewards["cards"]` maps a canonical card name to an
entry whose `"rewards"` key maps category tokens to numeric multipliers.
The per-card wrapper dict and its `"rewards"` sub-key
(`cards_dict.get(normalized_card, {}).get("rewards", {}) or {}`) are
collapsed into one association list per card. -/
structure Rewards where
  cards : List (String × List (String × ℚ))

/-- The reward profile used for one card of the wallet. -/
def profileOf (rewards : Rewards) (card : String) : List (String × ℚ) :=
  (rewards.cards.lookup card).getD []

/-- `base = float(rw.get("everything_else", 1.0) or 1.0)`: a missing or
falsy (zero) entry defaults to 1. -/
def baseRate (rws : List (String × ℚ)) : ℚ :=
  match rws.lookup "everything_else" with
  | some v => if v = 0 then 1 else v
  | none => 1

/-- `cc = lc(canonical_category) if canonical_category else None`: a missing
or empty (Python falsy) category is dropped, otherwise it is
lowercased/trimmed. -/
def ccNorm (canonical_category : Option String) : Option String :=
  match canonical_category with
  | some c => if c = "" then none else some (lcStr c)
  | none => none

/-- The travel subcategories of the `build_rows` special case. -/
def travelSubcats : List String := ["flights", "hotels", "transit"]

/-- The `cat_mult` computation of the `build_rows` loop body: 0 without a
category; else the profile entry for the category (default 0), falling back
to the generic `"travel"` entry (default 0) when that value is 0 and the
category is a travel subcategory. -/
def categoryMult (rws : List (String × ℚ)) (cc : Option String) : ℚ :=
  match cc with
  | none => 0
  | some c =>
    let cat := (rws.lookup c).getD 0
    if cat = 0 ∧ c ∈ travelSubcats then (rws.lookup "travel").getD 0 else cat

/-- The `rot_mult` computation of the `build_rows` loop body: the profile's
`"rotating"` entry (default 0) when the category is present and active,
otherwise 0. -/
def rotatingMult (rws : List (String × ℚ)) (cc : Option String)
    (rotating_active : List String) : ℚ :=
  match cc with
  | none => 0
  | some c => if c ∈ rotating_active then (rws.lookup "rotating").getD 0 else 0

/-- The `build_rows` loop body for one wallet card. -/
def mkRow (rewards : Rewards) (cc : Option String) (rotating_active : List String)
    (card : String) : MultiplierRow :=
  let normalized := normalize_card_name card
  let rws := profileOf rewards normalized
  let base := baseRate rws
  let cat := categoryMult rws cc
  let rot := rotatingMult rws cc rotating_active
  { card := normalized, category_multiplier := cat, rotating_multiplier := rot,
    base_multiplier := base, effective_multiplier := max base (max cat rot) }

/-- `build_rows(user_cards, rewards, canonical_category, rotating_active)`:
one row per wallet card, in wallet order. -/
def build_rows (user_cards : List String) (rewards : Rewards)
    (canonical_category : Option String) (rotating_active : List String) :
    List MultiplierRow :=
  user_cards.map (mkRow rewards (ccNorm canonical_category) rotating_active)

/-- The returned decision dict: `recommended_card` and `explanation`. -/
structure Decision where
  recommended_card : String
  explanation : String
deriving DecidableEq, Repr

/-- The parsed JSON reply of the text-generation collaborator:
`gpt.get("recommended_card")` and `gpt.get("explanation")`.  A JSON parse
failure yields `gpt = {}`, i.e. both fields `none`. -/
structure CollabReply where
  recommended_card : Option String
  explanation : Option String

/-- Outcome of the chat-completion call: a reply (already passed through the
guarded `json.loads`, with `{}` on parse failure) or a raised exception
(timeout, network error, ...) carrying its message. -/
inductive LLMOutcome where
  | reply (gpt : CollabReply)
  | failure (msg : String)

/-- The fields of `location_metadata` that the optimizer reads.  A missing
dict key is `none`. -/
structure LocationMetadata where
  category : Option String
  mcc : Option String
  place_types : Option (List String)
  user_cards : Option (List String)
  user_rotating_active : Option (List String)

/-- Rendering of a multiplier inside an explanation f-string.  (Python
prints the float's repr; the embedding prints the rational.) -/
def fmtQ (q : ℚ) : String :=
  if q.den = 1 then toString q.num else toString q.num ++ "/" ++ toString q.den

/-- `(canonical_category or 'base')`: a missing or empty category renders as
`"base"`. -/
def catOrBase (cc : Option String) : String :=
  match cc with
  | some c => if c = "" then "base" else c
  | none => "base"

/-- `list(location_metadata.get("user_cards") or [])`. -/
def userCardsOf (md : LocationMetadata) : List String :=
  md.user_cards.getD []

/-- `set(lc(c) for c in (location_metadata.get("user_rotating_active") or []))`,
as a list whose membership is the set's. -/
def rotatingActiveOf (md : LocationMetadata) : List String :=
  (md.user_rotating_active.getD []).map lcStr

/-- The canonical category computed by the optimizer for a request. -/
def analyzeCat (md : LocationMetadata) : Option String :=
  canonicalize_category md.category md.mcc md.place_types

/-- The multipliers table computed by the optimizer for a request. -/
def analyzeRows (rewards : Rewards) (md : LocationMetadata) : List MultiplierRow :=
  build_rows (userCardsOf md) rewards (analyzeCat md) (rotatingActiveOf md)

/-- `analyze_location_and_recommend_card`, with the two effectful steps made
explicit: the rewards dataset is a parameter and the collaborator call's
outcome is a parameter.  Every `except` of the source is a branch, so the
model is total — no exception reaches the caller.

* empty wallet: `raise ValueError("No user_cards provided")` lands in the
  outer handler where `best` is unbound, so the inner `if best` raises
  `NameError`, is swallowed, and the sentinel decision is returned with the
  original error text;
* collaborator exception: the outer handler returns `best` with the
  `"(fallback)."` explanation;
* parse failure or out-of-vocabulary card (including a reply without a
  `recommended_card` field, `None not in provided_names`): the
  `"(deterministic fallback)."` explanation;
* in-vocabulary card differing from the argmax: overridden to the argmax
  with the `"(corrected to argmax)."` explanation;
* agreement: the collaborator's explanation when truthy, else synthesized. -/
def analyze (rewards : Rewards) (md : LocationMetadata) (llm : LLMOutcome) : Decision :=
  let user_cards := userCardsOf md
  if user_cards.isEmpty then
    { recommended_card := "No specific recommendation",
      explanation := "Unable to compute optimal card: No user_cards provided" }
  else
    let cc := analyzeCat md
    let rows := analyzeRows rewards md
    let best := deterministic_best rows
    match llm with
    | .failure msg =>
      match best with
      | some b =>
        { recommended_card := b.card,
          explanation := b.card ++ " wins with " ++ fmtQ b.effective_multiplier ++
            "x on " ++ catOrBase cc ++ " (fallback)." }
      | none =>
        { recommended_card := "No specific recommendation",
          explanation := "Unable to compute optimal card: " ++ msg }
    | .reply gpt =>
      let provided_names := rows.map (fun r => r.card)
      match best, gpt.recommended_card with
      | none, _ =>
        { recommended_card := "No specific recommendation", explanation := "Unavailable." }
      | some b, none =>
        { recommended_card := b.card,
          explanation := b.card ++ " wins with " ++ fmtQ b.effective_multiplier ++
            "x on " ++ catOrBase cc ++ " (deterministic fallback)." }
      | some b, some chosen_name =>
        if chosen_name ∈ provided_names then
          match rows.find? (fun r => r.card = chosen_name) with
          | some chosen_row =>
            if chosen_row.card ≠ b.card then
              { recommended_card := b.card,
                explanation := b.card ++ " wins with " ++ fmtQ b.effective_multiplier ++
                  "x on " ++ catOrBase cc ++ " (corrected to argmax)." }
            else
              { recommended_card := chosen_row.card,
                explanation :=
                  match gpt.explanation with
                  | some s =>
                    if s = "" then
                      chosen_row.card ++ " wins with " ++ fmtQ chosen_row.effective_multiplier ++
                        "x on " ++ catOrBase cc ++ "."
                    else s
                  | none =>
                    chosen_row.card ++ " wins with " ++ fmtQ chosen_row.effective_multiplier ++
                      "x on " ++ catOrBase cc ++ "." }
          | none =>
            -- unreachable (`next` over a membership-checked name); a raised
            -- `StopIteration` would land in the outer handler with `best` bound
            { recommended_card := b.card,
              explanation := b.card ++ " wins with " ++ fmtQ b.effective_multiplier ++
                "x on " ++ catOrBase cc ++ " (fallback)." }
        else
          { recommended_card := b.card,
            explanation := b.card ++ " wins with " ++ fmtQ b.effective_multiplier ++
              "x on " ++ catOrBase cc ++ " (deterministic fallback)." }

example : deterministic_best [] = none := by decide

example :
    deterministic_best
      [⟨"Beta", 0, 0, 1, 3⟩, ⟨"Alpha", 3, 0, 1, 3⟩] =
      some ⟨"Alpha", 3, 0, 1, 3⟩ := by decide

example :
    deterministic_best
      [⟨"Alpha", 3, 0, 1, 3⟩, ⟨"Beta", 0, 0, 2, 3⟩] =
      some ⟨"Beta", 0, 0, 2, 3⟩ := by decide

example :
    deterministic_best
      [⟨"A", 2 - 1/10000000000, 0, 1, 2 - 1/10000000000⟩, ⟨"B", 2, 0, 1, 2⟩] =
      some ⟨"A", 2 - 1/10000000000, 0, 1, 2 - 1/10000000000⟩ := by decide

example : canonicalize_category (some "gas") (some "5812") none = some "dining" := by decide

example : canonicalize_category (some "gas") none (some ["lodging"]) = some "hotels" := by decide

example : canonicalize_category (some "Fuel") none none = some "gas" := by decide

example : canonicalize_category none none none = none := by decide

example : normalize_card_name "Amex Gold Card " = "Amex Gold" := by decide

example : normalize_card_name "Unknown Card" = "Unknown Card" := by decide

example :
    build_rows ["amex gold"] ⟨[("Amex Gold", [("dining", 4), ("everything_else", 1)])]⟩
      (some "dining") [] =
      [⟨"Amex Gold", 4, 0, 1, 4⟩] := by decide

example :
    analyze ⟨[("Alpha", [("everything_else", 2)]), ("Beta", [("everything_else", 1)])]⟩
      ⟨none, none, none, some ["Alpha", "Beta"], none⟩
      (.reply ⟨some "Beta", some "Beta is great"⟩) =
      ⟨"Alpha", "Alpha wins with 2x on base (corrected to argmax)."⟩ := by decide

example :
    analyze ⟨[("Alpha", [("everything_else", 2)])]⟩
      ⟨none, none, none, some [], none⟩ (.reply ⟨some "Alpha", none⟩) =
      ⟨"No specific recommendation",
       "Unable to compute optimal card: No user_cards provided"⟩ := by decide

example :
    analyze ⟨[("Alpha", [("everything_else", 2)])]⟩
      ⟨none, none, none, some ["Alpha"], none⟩ (.failure "timeout") =
      ⟨"Alpha", "Alpha wins with 2x on base (fallback)."⟩ := by decide

/-! ## Helper lemmas about the fold computing Python `max(...)` -/

theorem foldl_max_init_le (f : MultiplierRow → ℚ) (l : List MultiplierRow) (a : ℚ) :
    a ≤ l.foldl (fun m x => max m (f x)) a := by
  induction l generalizing a with
  | nil => exact le_refl a
  | cons x xs ih =>
    exact le_trans (le_max_left a (f x)) (ih (max a (f x)))

theorem foldl_max_le_of_mem (f : MultiplierRow → ℚ) {l : List MultiplierRow} {x : MultiplierRow}
    (h : x ∈ l) (a : ℚ) : f x ≤ l.foldl (fun m y => max m (f y)) a := by
  induction l generalizing a with
  | nil => cases h
  | cons y ys ih =>
    rcases List.mem_cons.mp h with rfl | hmem
    · exact le_trans (le_max_right a (f x)) (foldl_max_init_le f ys (max a (f x)))
    · exact ih hmem (max a (f y))

theorem foldl_max_eq_init_or_mem (f : MultiplierRow → ℚ) (l : List MultiplierRow) (a : ℚ) :
    l.foldl (fun m x => max m (f x)) a = a ∨
      ∃ x ∈ l, l.foldl (fun m x => max m (f x)) a = f x := by
  induction l generalizing a with
  | nil => exact Or.inl rfl
  | cons y ys ih =>
    rcases ih (max a (f y)) with h | ⟨x, hx, hfx⟩
    · rcases max_choice a (f y) with hm | hm
      · exact Or.inl (by simpa [hm] using h)
      · exact Or.inr ⟨y, List.mem_cons_self y ys, by simpa [hm] using h⟩
    · exact Or.inr ⟨x, List.mem_cons_of_mem y hx, hfx⟩

theorem foldMax_ub (f : MultiplierRow → ℚ) {rows : List MultiplierRow} {r : MultiplierRow}
    (h : r ∈ rows) : f r ≤ foldMax f rows := by
  cases rows with
  | nil => cases h
  | cons x xs =>
    rcases List.mem_cons.mp h with rfl | hmem
    · exact foldl_max_init_le f xs (f r)
    · exact foldl_max_le_of_mem f hmem (f x)

theorem foldMax_mem (f : MultiplierRow → ℚ) {rows : List MultiplierRow} (h : rows ≠ []) :
    ∃ r ∈ rows, f r = foldMax f rows := by
  cases rows with
  | nil => exact absurd rfl h
  | cons x xs =>
    rcases foldl_max_eq_init_or_mem f xs (f x) with he | ⟨r, hr, hfr⟩
    · exact ⟨x, List.mem_cons_self x xs, he.symm⟩
    · exact ⟨r, List.mem_cons_of_mem x hr, hfr.symm⟩

theorem foldMax_perm (f : MultiplierRow → ℚ) {rows rows' : List MultiplierRow}
    (h : rows.Perm rows') : foldMax f rows = foldMax f rows' := by
  cases rows with
  | nil =>
    have : rows' = [] := List.Perm.eq_nil h.symm
    simp [this]
  | cons x xs =>
    have hne : (x :: xs : List MultiplierRow) ≠ [] := by simp
    have hne' : rows' ≠ [] := by
      intro he
      exact hne (List.Perm.eq_nil (he ▸ h))
    obtain ⟨r, hr, hfr⟩ := foldMax_mem f hne
    obtain ⟨r', hr', hfr'⟩ := foldMax_mem f hne'
    have h1 : foldMax f (x :: xs) ≤ foldMax f rows' :=
      hfr ▸ foldMax_ub f (h.mem_iff.mp hr)
    have h2 : foldMax f rows' ≤ foldMax f (x :: xs) :=
      hfr' ▸ foldMax_ub f (h.mem_iff.mpr hr')
    exact le_antisymm h1 h2

/-! ## Helper lemmas about `isclose` and the tied filters -/

theorem isclose_refl (a : ℚ) : isclose a a = true := by
  have h0 : (0 : ℚ) ≤ tol := by norm_num [tol]
  simp only [isclose, decide_eq_true_eq, sub_self, abs_zero]
  exact le_trans h0 (le_max_right _ _)

theorem effTied_subset {rows : List MultiplierRow} : effTied rows ⊆ rows :=
  (List.filter_sublist _).subset

theorem baseTied_subset {rows : List MultiplierRow} : baseTied rows ⊆ effTied rows :=
  (List.filter_sublist _).subset

theorem mem_effTied_isclose {rows : List MultiplierRow} {r : MultiplierRow}
    (h : r ∈ effTied rows) : isclose r.effective_multiplier (maxEff rows) = true :=
  (List.mem_filter.mp h).2

theorem mem_baseTied_isclose {rows : List MultiplierRow} {r : MultiplierRow}
    (h : r ∈ baseTied rows) :
    isclose r.base_multiplier (maxBase (effTied rows)) = true :=
  (List.mem_filter.mp h).2

theorem effTied_ne_nil {rows : List MultiplierRow} (h : rows ≠ []) : effTied rows ≠ [] := by
  obtain ⟨r, hr, hfr⟩ := foldMax_mem (fun r => r.effective_multiplier) h
  have hmem : r ∈ effTied rows :=
    List.mem_filter.mpr ⟨hr, by rw [maxEff, ← hfr]; exact isclose_refl _⟩
  exact List.ne_nil_of_mem hmem

theorem baseTied_ne_nil {rows : List MultiplierRow} (h : rows ≠ []) : baseTied rows ≠ [] := by
  obtain ⟨r, hr, hfr⟩ := foldMax_mem (fun r => r.base_multiplier) (effTied_ne_nil h)
  have hmem : r ∈ baseTied rows :=
    List.mem_filter.mpr ⟨hr, by rw [maxBase, ← hfr]; exact isclose_refl _⟩
  exact List.ne_nil_of_mem hmem

theorem head?_singleton_of_length_one {l : List MultiplierRow} {b : MultiplierRow}
    (hl : l.length = 1) (hh : l.head? = some b) : l = [b] := by
  obtain ⟨a, rfl⟩ := List.length_eq_one.mp hl
  simp only [List.head?_cons, Option.some.injEq] at hh
  rw [hh]

/-- The best row is in both tied sets, and its card string is minimal among
`base_tied`.  (The common content of the three exit branches of
`deterministic_best`.) -/
theorem best_spec {rows : List MultiplierRow} {b : MultiplierRow}
    (h : deterministic_best rows = some b) :
    b ∈ effTied rows ∧ b ∈ baseTied rows ∧ ∀ r ∈ baseTied rows, b.card ≤ r.card := by
  unfold deterministic_best at h
  split at h
  · exact absurd h (by simp)
  · split at h
    · -- eff_tied is a singleton
      next h1 =>
      have he : effTied rows = [b] := head?_singleton_of_length_one h1 h
      have hbe : b ∈ effTied rows := by rw [he]; exact List.mem_cons_self b []
      have hmb : maxBase (effTied rows) = b.base_multiplier := by
        rw [he]; rfl
      have hbb : b ∈ baseTied rows := by
        refine List.mem_filter.mpr ⟨hbe, ?_⟩
        rw [hmb]; exact isclose_refl _
      refine ⟨hbe, hbb, ?_⟩
      intro r hr
      have := baseTied_subset hr
      rw [he] at this
      rcases List.mem_singleton.mp this with rfl
      exact le_refl _
    · split at h
      · -- base_tied is a singleton
        next h2 =>
        have he : baseTied rows = [b] := head?_singleton_of_length_one h2 h
        have hbb : b ∈ baseTied rows := by rw [he]; exact List.mem_cons_self b []
        refine ⟨baseTied_subset hbb, hbb, ?_⟩
        intro r hr
        rw [he] at hr
        rcases List.mem_singleton.mp hr with rfl
        exact le_refl _
      · -- alphabetic stage
        have hperm : (List.insertionSort cardLe (baseTied rows)).Perm (baseTied rows) :=
          List.perm_insertionSort cardLe (baseTied rows)
        have hsorted : List.Sorted cardLe (List.insertionSort cardLe (baseTied rows)) :=
          List.sorted_insertionSort cardLe (baseTied rows)
        cases hs : List.insertionSort cardLe (baseTied rows) with
        | nil => rw [hs] at h; exact absurd h (by simp)
        | cons x t =>
          rw [hs] at h
          simp only [List.head?_cons, Option.some.injEq] at h
          rw [hs] at hperm hsorted
          rw [h] at hperm hsorted
          have hbb : b ∈ baseTied rows := hperm.mem_iff.mp (List.mem_cons_self b t)
          refine ⟨baseTied_subset hbb, hbb, ?_⟩
          intro r hr
          have hrs : r ∈ b :: t := hperm.mem_iff.mpr hr
          rcases List.mem_cons.mp hrs with rfl | hrt
          · exact le_refl _
          · exact List.rel_of_sorted_cons hsorted r hrt

theorem deterministic_best_ne_none {rows : List MultiplierRow} (h : rows ≠ []) :
    deterministic_best rows ≠ none := by
  unfold deterministic_best
  rw [if_neg (by simpa [List.isEmpty_iff] using h)]
  split
  · next h1 =>
    obtain ⟨a, he⟩ := List.length_eq_one.mp h1
    simp [he]
  · split
    · next h2 =>
      obtain ⟨a, he⟩ := List.length_eq_one.mp h2
      simp [he]
    · have hne : List.insertionSort cardLe (baseTied rows) ≠ [] := by
        intro hnil
        have hp := List.perm_insertionSort cardLe (baseTied rows)
        rw [hnil] at hp
        exact baseTied_ne_nil h (List.Perm.eq_nil hp.symm)
      cases hs : List.insertionSort cardLe (baseTied rows) with
      | nil => exact absurd hs hne
      | cons x t => simp [hs]

/-! ## Permutation invariance of the selected card -/

theorem effTied_perm {rows rows' : List MultiplierRow} (h : rows.Perm rows') :
    (effTied rows).Perm (effTied rows') := by
  unfold effTied maxEff
  rw [foldMax_perm _ h]
  exact h.filter _

theorem baseTied_perm {rows rows' : List MultiplierRow} (h : rows.Perm rows') :
    (baseTied rows).Perm (baseTied rows') := by
  unfold baseTied maxBase
  rw [foldMax_perm _ (effTied_perm h)]
  exact (effTied_perm h).filter _

theorem sorted_head_card_eq {l l' : List MultiplierRow} (h : l.Perm l') :
    ((List.insertionSort cardLe l).head?).map MultiplierRow.card =
      ((List.insertionSort cardLe l').head?).map MultiplierRow.card := by
  have hp : (List.insertionSort cardLe l).Perm (List.insertionSort cardLe l') :=
    ((List.perm_insertionSort cardLe l).trans h).trans
      (List.perm_insertionSort cardLe l').symm
  have hs : List.Sorted cardLe (List.insertionSort cardLe l) :=
    List.sorted_insertionSort cardLe l
  have hs' : List.Sorted cardLe (List.insertionSort cardLe l') :=
    List.sorted_insertionSort cardLe l'
  cases hl : List.insertionSort cardLe l with
  | nil =>
    rw [hl] at hp
    rw [List.Perm.eq_nil hp.symm]
  | cons x t =>
    cases hl' : List.insertionSort cardLe l' with
    | nil =>
      rw [hl, hl'] at hp
      exact absurd (List.Perm.eq_nil hp) (by simp)
    | cons x' t' =>
      rw [hl] at hp hs
      rw [hl'] at hp hs'
      have hx : x ∈ x' :: t' := hp.mem_iff.mp (List.mem_cons_self x t)
      have hx' : x' ∈ x :: t := hp.mem_iff.mpr (List.mem_cons_self x' t')
      have h1 : x'.card ≤ x.card := by
        rcases List.mem_cons.mp hx with rfl | hxt
        · exact le_refl _
        · exact List.rel_of_sorted_cons hs' x hxt
      have h2 : x.card ≤ x'.card := by
        rcases List.mem_cons.mp hx' with he | hxt
        · exact le_of_eq (congrArg MultiplierRow.card he.symm)
        · exact List.rel_of_sorted_cons hs x' hxt
      simp only [List.head?_cons, Option.map_some]
      exact congrArg some (le_antisymm h2 h1)

theorem best_card_perm {rows rows' : List MultiplierRow} (h : rows.Perm rows') :
    (deterministic_best rows).map MultiplierRow.card =
      (deterministic_best rows').map MultiplierRow.card := by
  by_cases hE : rows = []
  · subst hE
    rw [List.Perm.eq_nil h.symm]
  · have hE' : rows' ≠ [] := fun he => hE (List.Perm.eq_nil (he ▸ h))
    have hef : (effTied rows).Perm (effTied rows') := effTied_perm h
    have hbt : (baseTied rows).Perm (baseTied rows') := baseTied_perm h
    have hne1 : ¬ (rows.isEmpty = true) := by simpa [List.isEmpty_iff] using hE
    have hne1' : ¬ (rows'.isEmpty = true) := by simpa [List.isEmpty_iff] using hE'
    unfold deterministic_best
    rw [if_neg hne1, if_neg hne1']
    by_cases h1 : (effTied rows).length = 1
    · have h1' : (effTied rows').length = 1 := by rw [← hef.length_eq]; exact h1
      rw [if_pos h1, if_pos h1']
      obtain ⟨a, ha⟩ := List.length_eq_one.mp h1
      obtain ⟨a', ha'⟩ := List.length_eq_one.mp h1'
      rw [ha, ha'] at hef
      have haa : a = a' := by simpa using List.perm_singleton.mp hef
      rw [ha, ha', haa]
    · have h1' : ¬ (effTied rows').length = 1 := by rw [← hef.length_eq]; exact h1
      rw [if_neg h1, if_neg h1']
      by_cases h2 : (baseTied rows).length = 1
      · have h2' : (baseTied rows').length = 1 := by rw [← hbt.length_eq]; exact h2
        rw [if_pos h2, if_pos h2']
        obtain ⟨a, ha⟩ := List.length_eq_one.mp h2
        obtain ⟨a', ha'⟩ := List.length_eq_one.mp h2'
        rw [ha, ha'] at hbt
        have haa : a = a' := by simpa using List.perm_singleton.mp hbt
        rw [ha, ha', haa]
      · have h2' : ¬ (baseTied rows').length = 1 := by rw [← hbt.length_eq]; exact h2
        rw [if_neg h2, if_neg h2']
        exact sorted_head_card_eq hbt

/-! ## Claim C1 -/

/-- C1, counterexample: with rows whose effective multipliers differ by
`1e-10` (within the `isclose` tolerance) and equal bases, the alphabetic
tie-break returns the row `"A"` whose effective multiplier is *not* the
maximum (the maximum `2` is attained only by `"B"`), refuting
"returns a row whose `effective_multiplier` equals the maximum". -/
theorem select_best_eq_max_cex :
    deterministic_best
        [⟨"A", 2 - 1/10000000000, 0, 1, 2 - 1/10000000000⟩, ⟨"B", 2, 0, 1, 2⟩] =
      some ⟨"A", 2 - 1/10000000000, 0, 1, 2 - 1/10000000000⟩ ∧
    maxEff [⟨"A", 2 - 1/10000000000, 0, 1, 2 - 1/10000000000⟩, ⟨"B", 2, 0, 1, 2⟩] = 2 ∧
    ((2 : ℚ) - 1/10000000000) ≠ 2 :=
  ⟨by decide, by decide, by decide⟩

/-- C1, amended: `deterministic_best` returns `none` exactly on the empty
list, and any returned row's `effective_multiplier` is within the `isclose`
tolerance (relative and absolute `1e-9`) of the maximum effective
multiplier over all rows (it need not equal the maximum exactly). -/
theorem select_best_within_tolerance (rows : List MultiplierRow) :
    (deterministic_best rows = none ↔ rows = []) ∧
    (∀ b, deterministic_best rows = some b →
      isclose b.effective_multiplier (maxEff rows) = true ∧
      ∀ r ∈ rows, r.effective_multiplier ≤ maxEff rows) := by
  constructor
  · constructor
    · intro hn
      by_contra hne
      exact deterministic_best_ne_none hne hn
    · intro h
      subst h
      rfl
  · intro b hb
    obtain ⟨hbe, _, _⟩ := best_spec hb
    exact ⟨mem_effTied_isclose hbe, fun r hr => foldMax_ub _ hr⟩

/-- C1 witness: the within-tolerance bound instantiated on a concrete
singleton table. -/
theorem select_best_within_tolerance_witness :
    isclose (⟨"X", 0, 0, 1, 1⟩ : MultiplierRow).effective_multiplier
        (maxEff [⟨"X", 0, 0, 1, 1⟩]) = true ∧
    ∀ r ∈ ([⟨"X", 0, 0, 1, 1⟩] : List MultiplierRow),
      r.effective_multiplier ≤ maxEff [⟨"X", 0, 0, 1, 1⟩] :=
  (select_best_within_tolerance [⟨"X", 0, 0, 1, 1⟩]).2 ⟨"X", 0, 0, 1, 1⟩ (by decide)

/-! ## Claim C2 -/

/-- C2: the selected row lies in the set of rows tied (within the `isclose`
tolerance) on the maximal effective multiplier, within that set it is tied
(same tolerance) on the maximal base multiplier, and among the rows tied on
both its card identifier is first in ascending case-sensitive lexicographic
order. -/
theorem select_best_tiebreak {rows : List MultiplierRow} {b : MultiplierRow}
    (h : deterministic_best rows = some b) :
    b ∈ effTied rows ∧ b ∈ baseTied rows ∧ ∀ r ∈ baseTied rows, b.card ≤ r.card :=
  best_spec h

/-- C2 witness: with equal effective and base multipliers, `"Alpha"` beats
`"Beta"` — the selected row is base-tied and its name bounds every tied
name from below. -/
theorem select_best_tiebreak_witness :
    (⟨"Alpha", 3, 0, 1, 3⟩ : MultiplierRow) ∈
        effTied [⟨"Beta", 3, 0, 1, 3⟩, ⟨"Alpha", 3, 0, 1, 3⟩] ∧
    (⟨"Alpha", 3, 0, 1, 3⟩ : MultiplierRow) ∈
        baseTied [⟨"Beta", 3, 0, 1, 3⟩, ⟨"Alpha", 3, 0, 1, 3⟩] ∧
    ∀ r ∈ baseTied [⟨"Beta", 3, 0, 1, 3⟩, ⟨"Alpha", 3, 0, 1, 3⟩],
      (⟨"Alpha", 3, 0, 1, 3⟩ : MultiplierRow).card ≤ r.card :=
  select_best_tiebreak (by decide)

/-! ## Claim C10 -/

/-- C10: the card selected by `deterministic_best` does not depend on the
order of the rows, and hence the recommended card does not depend on the
order in which the wallet cards were supplied to `build_rows`. -/
theorem select_best_perm_invariant :
    (∀ rows rows' : List MultiplierRow, rows.Perm rows' →
      (deterministic_best rows).map MultiplierRow.card =
        (deterministic_best rows').map MultiplierRow.card) ∧
    (∀ (cards cards' : List String) (rewards : Rewards)
        (cc : Option String) (act : List String), cards.Perm cards' →
      (deterministic_best (build_rows cards rewards cc act)).map MultiplierRow.card =
        (deterministic_best (build_rows cards' rewards cc act)).map MultiplierRow.card) := by
  refine ⟨fun rows rows' h => best_card_perm h, ?_⟩
  intro cards cards' rewards cc act h
  exact best_card_perm (h.map _)

/-- C10 witness: swapping two concrete rows leaves the selected card
unchanged. -/
theorem select_best_perm_invariant_witness :
    (deterministic_best [⟨"A", 0, 0, 1, 1⟩, ⟨"B", 0, 0, 2, 2⟩]).map MultiplierRow.card =
      (deterministic_best [⟨"B", 0, 0, 2, 2⟩, ⟨"A", 0, 0, 1, 1⟩]).map MultiplierRow.card :=
  select_best_perm_invariant.1 _ _ (by decide)

/-! ## Claim C5 -/

/-- C5: every row built by `build_rows` satisfies the row invariant —
`effective_multiplier ≥ base_multiplier`, and `rotating_multiplier = 0`
whenever the lowercased canonical category is absent from the active
rotating set, including when the canonical category is `None`, regardless
of the card profile's `rotating` rate. -/
theorem build_rows_invariant (cards : List String) (rewards : Rewards)
    (cc : Option String) (act : List String) :
    ∀ r ∈ build_rows cards rewards cc act,
      r.base_multiplier ≤ r.effective_multiplier ∧
      (cc = none → r.rotating_multiplier = 0) ∧
      (∀ c, cc = some c → lcStr c ∉ act → r.rotating_multiplier = 0) := by
  intro r hr
  simp only [build_rows] at hr
  obtain ⟨card, hcard, rfl⟩ := List.mem_map.mp hr
  refine ⟨?_, ?_, ?_⟩
  · simp only [mkRow]
    exact le_max_left _ _
  · intro hcc
    subst hcc
    simp [mkRow, rotatingMult, ccNorm]
  · intro c hcc hact
    subst hcc
    by_cases hc : c = ""
    · simp [mkRow, rotatingMult, ccNorm, hc]
    · simp [mkRow, rotatingMult, ccNorm, hc, hact]

/-- C5 witness: a card whose profile has a nonzero `rotating` rate still
gets `rotating_multiplier = 0` when the category is inactive. -/
theorem build_rows_invariant_witness :
    (⟨"A", 0, 0, 1, 1⟩ : MultiplierRow).base_multiplier ≤
        (⟨"A", 0, 0, 1, 1⟩ : MultiplierRow).effective_multiplier ∧
    (⟨"A", 0, 0, 1, 1⟩ : MultiplierRow).rotating_multiplier = 0 :=
  have h := build_rows_invariant ["A"] ⟨[("A", [("rotating", 5)])]⟩ (some "dining") []
    ⟨"A", 0, 0, 1, 1⟩ (by decide)
  ⟨h.1, h.2.2 "dining" rfl (by decide)⟩

/-! ## Claim C7 -/

/-- C7: canonicalization resolves its signals with a fixed precedence —
a recognized MCC wins outright; otherwise the first recognized place tag
wins; otherwise a non-empty free-text category is lowercased/trimmed and
alias-mapped (returned as-is when unaliased); otherwise the result is
`none`.  In particular MCC `"5812"` beats free text `"gas"` and yields
`"dining"`. -/
theorem canonicalize_precedence :
    (∀ (category mcc : Option String) (pts : Option (List String)) (v : String),
      mccMap.lookup (trimStr (mcc.getD "")) = some v →
      canonicalize_category category mcc pts = some v) ∧
    (∀ (category mcc : Option String) (pts : Option (List String)) (v : String),
      mccMap.lookup (trimStr (mcc.getD "")) = none →
      ((pts.getD []).map toLowerStr).findSome? (fun t => typeMap.lookup t) = some v →
      canonicalize_category category mcc pts = some v) ∧
    (∀ (c : String) (mcc : Option String) (pts : Option (List String)),
      mccMap.lookup (trimStr (mcc.getD "")) = none →
      ((pts.getD []).map toLowerStr).findSome? (fun t => typeMap.lookup t) = none →
      c ≠ "" →
      canonicalize_category (some c) mcc pts =
        some ((catAlias.lookup (lcStr c)).getD (lcStr c))) ∧
    (∀ (mcc : Option String) (pts : Option (List String)),
      mccMap.lookup (trimStr (mcc.getD "")) = none →
      ((pts.getD []).map toLowerStr).findSome? (fun t => typeMap.lookup t) = none →
      canonicalize_category none mcc pts = none) ∧
    (∀ pts : Option (List String),
      canonicalize_category (some "gas") (some "5812") pts = some "dining") := by
  refine ⟨?_, ?_, ?_, ?_, ?_⟩
  · intro category mcc pts v h
    unfold canonicalize_category
    rw [h]
  · intro category mcc pts v h1 h2
    unfold canonicalize_category
    rw [h1, h2]
  · intro c mcc pts h1 h2 hc
    unfold canonicalize_category
    rw [h1, h2]
    simp [hc]
  · intro mcc pts h1 h2
    unfold canonicalize_category
    rw [h1, h2]
  · intro pts
    rfl

/-- C7 witness: with no MCC or tag hit, `"Fuel"` lowercases and aliases to
`"gas"`; and the MCC-beats-free-text instance resolves to `"dining"`. -/
theorem canonicalize_precedence_witness :
    canonicalize_category (some "Fuel") none none =
      some ((catAlias.lookup (lcStr "Fuel")).getD (lcStr "Fuel")) ∧
    canonicalize_category (some "gas") (some "5812") none = some "dining" :=
  ⟨canonicalize_precedence.2.2.1 "Fuel" none none (by decide) (by decide) (by decide),
   canonicalize_precedence.2.2.2.2 none⟩

/-! ## Claim C8 -/

/-- C8: in `build_rows`, a travel subcategory (`flights`/`hotels`/`transit`)
with no profile entry falls back to the profile's generic `"travel"` entry
(default 0); any other category token with no entry yields 0; and a `None`
(or empty) canonical category yields 0. -/
theorem build_rows_travel_fallback (cards : List String) (rewards : Rewards)
    (cc : Option String) (act : List String) :
    ∀ r ∈ build_rows cards rewards cc act,
      (ccNorm cc = none → r.category_multiplier = 0) ∧
      (∀ c, ccNorm cc = some c →
        (profileOf rewards r.card).lookup c = none →
        (c ∈ travelSubcats →
          r.category_multiplier = ((profileOf rewards r.card).lookup "travel").getD 0) ∧
        (c ∉ travelSubcats → r.category_multiplier = 0)) := by
  intro r hr
  simp only [build_rows] at hr
  obtain ⟨card, hcard, rfl⟩ := List.mem_map.mp hr
  constructor
  · intro hcc
    simp [mkRow, categoryMult, hcc]
  · intro c hcc hlk
    simp only [mkRow] at hlk
    constructor
    · intro htravel
      simp [mkRow, categoryMult, hcc, hlk, htravel]
    · intro htravel
      simp [mkRow, categoryMult, hcc, hlk, htravel]

/-- C8 witness: a card with `travel: 3` but no `flights` entry gets the
travel rate as its category multiplier for `flights`. -/
theorem build_rows_travel_fallback_witness :
    (⟨"A", 3, 0, 1, 3⟩ : MultiplierRow).category_multiplier =
      ((profileOf ⟨[("A", [("travel", 3)])]⟩ "A").lookup "travel").getD 0 :=
  ((build_rows_travel_fallback ["A"] ⟨[("A", [("travel", 3)])]⟩ (some "flights") []
      ⟨"A", 3, 0, 1, 3⟩ (by decide)).2 "flights" (by decide) (by decide)).1 (by decide)

/-! ## Claim C9 -/

theorem lookup_mem_of_eq_some {l : List (String × String)} {k v : String}
    (h : l.lookup k = some v) : (k, v) ∈ l := by
  induction l with
  | nil => simp [List.lookup] at h
  | cons p t ih =>
    obtain ⟨a, b⟩ := p
    simp only [List.lookup] at h
    cases hbe : (k == a) with
    | true =>
      rw [hbe] at h
      simp only [Option.some.injEq] at h
      have hk : k = a := eq_of_beq hbe
      rw [hk, ← h]
      exact List.mem_cons_self _ _
    | false =>
      rw [hbe] at h
      exact List.mem_cons_of_mem _ (ih h)

/-- Every value of the alias table is its own normal form. -/
theorem cardMappings_values_fixed :
    ∀ p ∈ cardMappings, normalize_card_name p.2 = p.2 := by decide

/-- C9: `normalize_card_name` is idempotent on every string, and returns
unaliased raw names unchanged. -/
theorem normalize_card_name_idem (x : String) :
    normalize_card_name (normalize_card_name x) = normalize_card_name x ∧
    (cardMappings.lookup (lcStr x) = none → normalize_card_name x = x) := by
  by_cases hx : x = ""
  · subst hx
    exact ⟨rfl, fun _ => rfl⟩
  · cases hl : cardMappings.lookup (lcStr x) with
    | none =>
      have hxx : normalize_card_name x = x := by
        simp [normalize_card_name, hx, hl]
      constructor
      · rw [hxx]
        exact hxx
      · intro _
        exact hxx
    | some v =>
      have hv : (lcStr x, v) ∈ cardMappings := lookup_mem_of_eq_some hl
      have hfix : normalize_card_name v = v := cardMappings_values_fixed _ hv
      have hxv : normalize_card_name x = v := by
        simp [normalize_card_name, hx, hl]
      constructor
      · rw [hxv]
        exact hfix
      · intro hnone
        simp [hl] at hnone

/-- C9 witness: an unknown card name is a fixed point. -/
theorem normalize_card_name_idem_witness :
    normalize_card_name "Totally Unknown" = "Totally Unknown" :=
  (normalize_card_name_idem "Totally Unknown").2 (by decide)

/-! ## Claims C3, C4, C6: the arbitration pipeline -/

theorem userCards_ne_nil_of_best {rewards : Rewards} {md : LocationMetadata}
    {b : MultiplierRow} (hb : deterministic_best (analyzeRows rewards md) = some b) :
    ¬ ((userCardsOf md).isEmpty = true) := by
  intro hE
  rw [List.isEmpty_iff] at hE
  simp [analyzeRows, build_rows, hE, deterministic_best] at hb

/-- C3: an in-vocabulary collaborator choice that differs from the
deterministic optimum is overridden — the decision is the argmax card with
the "(corrected to argmax)." explanation, never the collaborator's card. -/
theorem analyze_override_to_argmax (rewards : Rewards) (md : LocationMetadata)
    (gpt : CollabReply) (name : String) (b : MultiplierRow)
    (hb : deterministic_best (analyzeRows rewards md) = some b)
    (hname : gpt.recommended_card = some name)
    (hmem : name ∈ (analyzeRows rewards md).map (fun r => r.card))
    (hdiff : name ≠ b.card) :
    analyze rewards md (.reply gpt) =
      ⟨b.card, b.card ++ " wins with " ++ fmtQ b.effective_multiplier ++
        "x on " ++ catOrBase (analyzeCat md) ++ " (corrected to argmax)."⟩ := by
  have hcards := userCards_ne_nil_of_best hb
  simp only [analyze]
  rw [if_neg hcards]
  simp only [hb, hname]
  rw [if_pos hmem]
  cases hfind : (analyzeRows rewards md).find? (fun r => decide (r.card = name)) with
  | none =>
    rw [List.find?_eq_none] at hfind
    obtain ⟨r₀, hr₀, hr₀card⟩ := List.mem_map.mp hmem
    exact absurd (by simpa using hr₀card) (by simpa using hfind r₀ hr₀)
  | some r₀ =>
    have hr₀card : r₀.card = name := by
      have := List.find?_some hfind
      simpa using this
    have hne : r₀.card ≠ b.card := by rw [hr₀card]; exact hdiff
    simp [hne]

/-- C3 witness: the collaborator names in-wallet `"Beta"`, but the returned
card is the argmax `"Alpha"`. -/
theorem analyze_override_to_argmax_witness :
    (analyze ⟨[("Alpha", [("everything_else", 2)]), ("Beta", [("everything_else", 1)])]⟩
        ⟨none, none, none, some ["Alpha", "Beta"], none⟩
        (.reply ⟨some "Beta", some "Beta is great"⟩)).recommended_card = "Alpha" := by
  rw [analyze_override_to_argmax _ _ _ "Beta" ⟨"Alpha", 0, 0, 2, 2⟩
    (by decide) rfl (by decide) (by decide)]

/-- C4 counterexample: a collaborator exception (e.g. a timeout) is
answered with the `"(fallback)."` explanation, not the claimed
`"(deterministic fallback)."` one. -/
theorem collaborator_exception_expl_cex :
    analyze ⟨[("Alpha", [("everything_else", 2)])]⟩
        ⟨none, none, none, some ["Alpha"], none⟩ (.failure "timeout") =
      ⟨"Alpha", "Alpha wins with 2x on base (fallback)."⟩ ∧
    "Alpha wins with 2x on base (fallback)." ≠
      "Alpha wins with 2x on base (deterministic fallback)." :=
  ⟨by decide, by decide⟩

/-- C4, amended: a parse failure (no parsed card) or an out-of-vocabulary
card yields the deterministic best with the "(deterministic fallback)."
explanation; a collaborator exception also yields the deterministic best
card but with the "(fallback)." explanation; in every case a decision is
returned, never an exception. -/
theorem analyze_fallback_behaviour :
    (∀ (rewards : Rewards) (md : LocationMetadata) (gpt : CollabReply) (b : MultiplierRow),
      deterministic_best (analyzeRows rewards md) = some b →
      (∀ n, gpt.recommended_card = some n →
        n ∉ (analyzeRows rewards md).map (fun r => r.card)) →
      analyze rewards md (.reply gpt) =
        ⟨b.card, b.card ++ " wins with " ++ fmtQ b.effective_multiplier ++
          "x on " ++ catOrBase (analyzeCat md) ++ " (deterministic fallback)."⟩) ∧
    (∀ (rewards : Rewards) (md : LocationMetadata) (msg : String) (b : MultiplierRow),
      deterministic_best (analyzeRows rewards md) = some b →
      analyze rewards md (.failure msg) =
        ⟨b.card, b.card ++ " wins with " ++ fmtQ b.effective_multiplier ++
          "x on " ++ catOrBase (analyzeCat md) ++ " (fallback)."⟩) := by
  constructor
  · intro rewards md gpt b hb hnv
    have hcards := userCards_ne_nil_of_best hb
    simp only [analyze]
    rw [if_neg hcards]
    cases hname : gpt.recommended_card with
    | none => simp only [hb, hname]
    | some n =>
      simp only [hb, hname]
      rw [if_neg (hnv n hname)]
  · intro rewards md msg b hb
    have hcards := userCards_ne_nil_of_best hb
    simp only [analyze]
    rw [if_neg hcards]
    simp only [hb]

/-- C4 witness: an out-of-vocabulary reply (`"Gamma"`) produces the
deterministic fallback explanation. -/
theorem analyze_fallback_behaviour_witness :
    (analyze ⟨[("Alpha", [("everything_else", 2)])]⟩
        ⟨none, none, none, some ["Alpha"], none⟩
        (.reply ⟨some "Gamma", none⟩)).explanation =
      "Alpha wins with 2x on base (deterministic fallback)." := by
  rw [analyze_fallback_behaviour.1 _ _ _ ⟨"Alpha", 0, 0, 2, 2⟩ (by decide)
    (by intro n hn
        have hn2 : n = "Gamma" := by simpa using hn.symm
        subst hn2
        decide)]
  decide

/-- C6: an empty or absent wallet yields the sentinel decision with a
diagnostic explanation, as a normal return value. -/
theorem analyze_empty_wallet (rewards : Rewards) (md : LocationMetadata) (llm : LLMOutcome)
    (h : md.user_cards = none ∨ md.user_cards = some []) :
    analyze rewards md llm =
      ⟨"No specific recommendation",
       "Unable to compute optimal card: No user_cards provided"⟩ := by
  have hE : (userCardsOf md).isEmpty = true := by
    rcases h with h | h <;> simp [userCardsOf, h]
  simp only [analyze]
  rw [if_pos hE]

/-- C6 witness: the sentinel decision on a concrete empty wallet. -/
theorem analyze_empty_wallet_witness :
    analyze ⟨[("Alpha", [("everything_else", 2)])]⟩ ⟨none, none, none, none, none⟩
        (.failure "boom") =
      ⟨"No specific recommendation",
       "Unable to compute optimal card: No user_cards provided"⟩ :=
  analyze_empty_wallet _ _ _ (Or.inl rfl)

end Keel
